import Mathlib

/-!
Shallow embedding of the Game of Life simulation engine
(source: src/GameOfLife.ts, class GameOfLife).

The engine state is the record of the class's private fields:
the grid (a list of rows of booleans), the fixed dimensions
(TS numbers holding possibly negative integers, modelled as Int),
and the two rule sets (JS Set of numbers, modelled as the list of
distinct inserted elements in first-occurrence order, which is the
iteration order of a JS Set).
-/

/-- A JS Set built from a list: distinct elements in first-occurrence
order. Worker with the list of elements already seen. -/
def dedupFirstGo : List Nat → List Nat → List Nat
  | [], _ => []
  | x :: xs, seen => if x ∈ seen then dedupFirstGo xs seen else x :: dedupFirstGo xs (x :: seen)

/-- Distinct elements of a list in first-occurrence order (the element
list of the JS Set constructed from it). -/
def dedupFirst (l : List Nat) : List Nat := dedupFirstGo l []

/-- One UTF-16 string strictly-less-than another (JS default sort
comparator semantics), on strings as lists of chars. -/
def strLtB : List Char → List Char → Bool
  | _, [] => false
  | [], _ :: _ => true
  | a :: as, b :: bs => decide (a < b) || (a == b && strLtB as bs)

/-- The order in which the JS default Array.prototype.sort arranges two
numbers: compare their decimal string representations lexicographically. -/
def jsLe (a b : Nat) : Prop := strLtB (Nat.toDigits 10 b) (Nat.toDigits 10 a) = false

instance (a b : Nat) : Decidable (jsLe a b) := by unfold jsLe; infer_instance

/-- The engine state: fields of class GameOfLife. -/
structure GameOfLife where
  rows : Int
  cols : Int
  grid : List (List Bool)
  birthRule : List Nat
  survivalRule : List Nat
  deriving DecidableEq

namespace GameOfLife

/-- createEmptyGrid: rows x cols of false (Array.from with a negative
length yields an empty array, as Int.toNat sends negatives to 0). -/
def createEmptyGrid (rows cols : Int) : List (List Bool) :=
  List.replicate rows.toNat (List.replicate cols.toNat false)

/-- The constructor: empty grid, default rules B3/S23. -/
def new (rows cols : Int) : GameOfLife :=
  { rows := rows, cols := cols, grid := createEmptyGrid rows cols,
    birthRule := [3], survivalRule := [2, 3] }

/-- setBirthRule: replace the birth rule set with the set of the given counts. -/
def setBirthRule (g : GameOfLife) (counts : List Nat) : GameOfLife :=
  { g with birthRule := dedupFirst counts }

/-- setSurvivalRule: replace the survival rule set with the set of the given counts. -/
def setSurvivalRule (g : GameOfLife) (counts : List Nat) : GameOfLife :=
  { g with survivalRule := dedupFirst counts }

/-- getBirthRule: Array.from(set).sort() - the set's elements arranged by
the JS default (string-comparing) sort. -/
def getBirthRule (g : GameOfLife) : List Nat :=
  List.insertionSort jsLe g.birthRule

/-- getSurvivalRule: Array.from(set).sort(). -/
def getSurvivalRule (g : GameOfLife) : List Nat :=
  List.insertionSort jsLe g.survivalRule

/-- getCell: false for out-of-bounds coordinates, else the grid entry. -/
def getCell (g : GameOfLife) (row col : Int) : Bool :=
  if row < 0 ∨ g.rows ≤ row ∨ col < 0 ∨ g.cols ≤ col then false
  else (g.grid.getD row.toNat []).getD col.toNat false

/-- The guard of setCell and toggleCell: row >= 0 && row < this.rows &&
col >= 0 && col < this.cols. -/
def inBounds (g : GameOfLife) (row col : Int) : Prop :=
  0 ≤ row ∧ row < g.rows ∧ 0 ≤ col ∧ col < g.cols

instance (g : GameOfLife) (row col : Int) : Decidable (inBounds g row col) := by
  unfold inBounds; infer_instance

/-- setCell: write the cell when in bounds, otherwise do nothing. -/
def setCell (g : GameOfLife) (row col : Int) (alive : Bool) : GameOfLife :=
  if inBounds g row col then
    { g with grid := g.grid.set row.toNat ((g.grid.getD row.toNat []).set col.toNat alive) }
  else g

/-- toggleCell: negate the cell when in bounds, otherwise do nothing. -/
def toggleCell (g : GameOfLife) (row col : Int) : GameOfLife :=
  if inBounds g row col then
    let oldRow := g.grid.getD row.toNat []
    { g with grid := g.grid.set row.toNat (oldRow.set col.toNat (!(oldRow.getD col.toNat false))) }
  else g

/-- The eight Moore-neighborhood offsets, in the order the dr/dc loops
visit them (skipping (0,0)). -/
def neighborOffsets : List (Int × Int) :=
  [(-1, -1), (-1, 0), (-1, 1), (0, -1), (0, 1), (1, -1), (1, 0), (1, 1)]

/-- countNeighbors: how many of the eight surrounding positions are alive,
read through the bounds-safe getCell. -/
def countNeighbors (g : GameOfLife) (row col : Int) : Nat :=
  neighborOffsets.countP (fun d => g.getCell (row + d.1) (col + d.2))

/-- nextGeneration: build a whole new grid, each cell from the old grid's
neighbor count and the rule sets, then replace the grid with it. -/
def nextGeneration (g : GameOfLife) : GameOfLife :=
  { g with grid :=
      (List.range g.rows.toNat).map fun (row : Nat) =>
        (List.range g.cols.toNat).map fun (col : Nat) =>
          let neighbors := g.countNeighbors (row : Int) (col : Int)
          let isAlive := (g.grid.getD row []).getD col false
          if isAlive then g.survivalRule.contains neighbors
          else g.birthRule.contains neighbors }

/-- clear: replace the grid with an empty one. -/
def clear (g : GameOfLife) : GameOfLife :=
  { g with grid := createEmptyGrid g.rows g.cols }

/-- The glider template of addGlider. -/
def glider : List (List Nat) :=
  [[0, 1, 0],
   [0, 0, 1],
   [1, 1, 1]]

/-- The Gosper glider gun template of addGliderGun. -/
def gliderGunPattern : List (List Nat) :=
  [[0,0,0,0,0,0,0,0,0,0,0,0,0,0,0,0,0,0,0,0,0,0,0,0,1,0,0,0,0,0,0,0,0,0,0,0],
   [0,0,0,0,0,0,0,0,0,0,0,0,0,0,0,0,0,0,0,0,0,0,1,0,1,0,0,0,0,0,0,0,0,0,0,0],
   [0,0,0,0,0,0,0,0,0,0,0,0,1,1,0,0,0,0,0,0,1,1,0,0,0,0,0,0,0,0,0,0,0,0,1,1],
   [0,0,0,0,0,0,0,0,0,0,0,1,0,0,0,1,0,0,0,0,1,1,0,0,0,0,0,0,0,0,0,0,0,0,1,1],
   [1,1,0,0,0,0,0,0,0,0,1,0,0,0,0,0,1,0,0,0,1,1,0,0,0,0,0,0,0,0,0,0,0,0,0,0],
   [1,1,0,0,0,0,0,0,0,0,1,0,0,0,1,0,1,1,0,0,0,0,1,0,1,0,0,0,0,0,0,0,0,0,0,0],
   [0,0,0,0,0,0,0,0,0,0,1,0,0,0,0,0,1,0,0,0,0,0,0,0,1,0,0,0,0,0,0,0,0,0,0,0],
   [0,0,0,0,0,0,0,0,0,0,0,1,0,0,0,1,0,0,0,0,0,0,0,0,0,0,0,0,0,0,0,0,0,0,0,0],
   [0,0,0,0,0,0,0,0,0,0,0,0,1,1,0,0,0,0,0,0,0,0,0,0,0,0,0,0,0,0,0,0,0,0,0,0]]

/-- The row-major loop over a pattern: setCell(startRow+row, startCol+col, true)
for every nonzero pattern entry. Shared shape of addGlider and addGliderGun. -/
def stampPattern (pattern : List (List Nat)) (g : GameOfLife) (startRow startCol : Int) :
    GameOfLife :=
  (List.range pattern.length).foldl (fun g1 (row : Nat) =>
    (List.range (pattern.getD row []).length).foldl (fun g2 (col : Nat) =>
      if (pattern.getD row []).getD col 0 ≠ 0 then
        g2.setCell (startRow + (row : Int)) (startCol + (col : Int)) true
      else g2) g1) g

/-- addGlider: stamp the glider template at the given offset. -/
def addGlider (g : GameOfLife) (startRow startCol : Int) : GameOfLife :=
  stampPattern glider g startRow startCol

/-- addGliderGun: stamp the Gosper glider gun template at the given offset. -/
def addGliderGun (g : GameOfLife) (startRow startCol : Int) : GameOfLife :=
  stampPattern gliderGunPattern g startRow startCol

/-- getPopulation: count the true cells by the row/col loops. -/
def getPopulation (g : GameOfLife) : Nat :=
  ((List.range g.rows.toNat).map fun row =>
    (List.range g.cols.toNat).countP fun col => (g.grid.getD row []).getD col false).sum

/-- The class invariant of every reachable engine state: the grid really
has rows x cols entries. -/
def WF (g : GameOfLife) : Prop :=
  g.grid.length = g.rows.toNat ∧ ∀ r ∈ g.grid, r.length = g.cols.toNat

instance (g : GameOfLife) : Decidable (WF g) := by unfold WF; infer_instance

/-- Set each listed coordinate alive, in order, through setCell. -/
def setCellsTrue (g : GameOfLife) (qs : List (Int × Int)) : GameOfLife :=
  qs.foldl (fun h q => h.setCell q.1 q.2 true) g

/-- The (row, col) positions of the nonzero entries of a pattern template,
in the row-major order the stamping loops visit them. -/
def patternCoords (p : List (List Nat)) : List (Int × Int) :=
  (List.range p.length).flatMap fun (row : Nat) =>
    (((List.range (p.getD row []).length).filter fun (col : Nat) => (p.getD row []).getD col 0 ≠ 0).map
      fun (col : Nat) => ((row : Int), (col : Int)))

/-- Cell (r, c) is covered by an alive entry of the pattern stamped at
(startRow, startCol). -/
def covers (p : List (List Nat)) (startRow startCol r c : Int) : Prop :=
  ∃ q ∈ patternCoords p, r = startRow + q.1 ∧ c = startCol + q.2

instance (p : List (List Nat)) (startRow startCol r c : Int) :
    Decidable (covers p startRow startCol r c) := by
  unfold covers; infer_instance

end GameOfLife

namespace GameOfLife

/-! ### List access helper lemmas -/

theorem getD_set_self {α : Type} (l : List α) (i : Nat) (a d : α) (h : i < l.length) :
    (l.set i a).getD i d = a := by
  simp [List.getD_eq_getElem?_getD, List.getElem?_set, h]

theorem getD_set_ne {α : Type} (l : List α) (i j : Nat) (a d : α) (h : i ≠ j) :
    (l.set i a).getD j d = l.getD j d := by
  simp [List.getD_eq_getElem?_getD, List.getElem?_set, h]

theorem getD_map_range {α : Type} (n : Nat) (f : Nat → α) (i : Nat) (d : α) (h : i < n) :
    ((List.range n).map f).getD i d = f i := by
  simp [List.getD_eq_getElem?_getD, List.getElem?_map, List.getElem?_range h]

theorem getD_replicate_self {α : Type} (n i : Nat) (d : α) :
    (List.replicate n d).getD i d = d := by
  rw [List.getD_eq_getElem?_getD, List.getElem?_replicate]
  split <;> rfl

theorem set_getD_self {α : Type} (l : List α) (i : Nat) (d : α) :
    l.set i (l.getD i d) = l := by
  by_cases hi : i < l.length
  · apply List.ext_getElem?
    intro n
    rw [List.getElem?_set]
    by_cases hn : i = n
    · subst hn
      simp [hi, List.getD_eq_getElem?_getD, List.getElem?_eq_getElem hi]
    · simp [hn]
  · rw [List.set_eq_of_length_le (Nat.le_of_not_lt hi)]

/-! ### Well-formedness of the grid -/

theorem WF_row_length {g : GameOfLife} (hwf : WF g) {i : Nat} (h : i < g.rows.toNat) :
    (g.grid.getD i []).length = g.cols.toNat := by
  have hlen : i < g.grid.length := by rw [hwf.1]; exact h
  rw [List.getD_eq_getElem?_getD, List.getElem?_eq_getElem hlen, Option.getD_some]
  exact hwf.2 _ (List.getElem_mem hlen)

theorem WF_new (rows cols : Int) : WF (new rows cols) := by
  constructor
  · simp [new, createEmptyGrid]
  · intro r hr
    simp only [new, createEmptyGrid] at hr
    rw [List.eq_of_mem_replicate hr]
    simp [new]

/-! ### getCell -/

theorem getCell_of_not_inBounds (g : GameOfLife) {row col : Int} (h : ¬ inBounds g row col) :
    g.getCell row col = false := by
  unfold getCell
  rw [if_pos]
  unfold inBounds at h; omega

theorem getCell_of_inBounds (g : GameOfLife) {row col : Int} (h : inBounds g row col) :
    g.getCell row col = (g.grid.getD row.toNat []).getD col.toNat false := by
  unfold getCell
  rw [if_neg]
  unfold inBounds at h; omega

/-! ### setCell and toggleCell -/

theorem setCell_of_inBounds (g : GameOfLife) {row col : Int} (b : Bool) (h : inBounds g row col) :
    g.setCell row col b =
      { g with grid := g.grid.set row.toNat ((g.grid.getD row.toNat []).set col.toNat b) } := by
  unfold setCell
  rw [if_pos h]

theorem setCell_of_not_inBounds (g : GameOfLife) {row col : Int} (b : Bool)
    (h : ¬ inBounds g row col) : g.setCell row col b = g := by
  unfold setCell
  rw [if_neg h]

theorem toggleCell_of_not_inBounds (g : GameOfLife) {row col : Int}
    (h : ¬ inBounds g row col) : g.toggleCell row col = g := by
  unfold toggleCell
  rw [if_neg h]

theorem toggleCell_eq_setCell (g : GameOfLife) (row col : Int) :
    g.toggleCell row col = g.setCell row col (!(g.getCell row col)) := by
  by_cases h : inBounds g row col
  · rw [setCell_of_inBounds g _ h, getCell_of_inBounds g h]
    unfold toggleCell
    rw [if_pos h]
  · rw [setCell_of_not_inBounds g _ h, toggleCell_of_not_inBounds g h]

theorem setCell_rows (g : GameOfLife) (row col : Int) (b : Bool) :
    (g.setCell row col b).rows = g.rows := by
  unfold setCell; split <;> rfl

theorem setCell_cols (g : GameOfLife) (row col : Int) (b : Bool) :
    (g.setCell row col b).cols = g.cols := by
  unfold setCell; split <;> rfl

theorem setCell_inBounds_iff (g : GameOfLife) (row col r c : Int) (b : Bool) :
    inBounds (g.setCell row col b) r c ↔ inBounds g r c := by
  unfold inBounds
  rw [setCell_rows, setCell_cols]

theorem WF_setCell {g : GameOfLife} (hwf : WF g) (row col : Int) (b : Bool) :
    WF (g.setCell row col b) := by
  by_cases h : inBounds g row col
  · rw [setCell_of_inBounds g b h]
    constructor
    · simp [hwf.1]
    · intro r hr
      rcases List.mem_or_eq_of_mem_set hr with hmem | heq
      · exact hwf.2 r hmem
      · subst heq
        rw [List.length_set]
        exact WF_row_length hwf (by unfold inBounds at h; omega)
  · rw [setCell_of_not_inBounds g b h]; exact hwf

theorem getCell_setCell {g : GameOfLife} (hwf : WF g) (row col r c : Int) (b : Bool) :
    (g.setCell row col b).getCell r c =
      if r = row ∧ c = col ∧ inBounds g row col then b else g.getCell r c := by
  by_cases hin : inBounds g row col
  · rw [setCell_of_inBounds g b hin]
    by_cases hrc : inBounds g r c
    · have hrc' : inBounds { g with grid := g.grid.set row.toNat ((g.grid.getD row.toNat []).set col.toNat b) } r c := hrc
      rw [getCell_of_inBounds _ hrc', getCell_of_inBounds _ hrc]
      have hr0 : (0 : Int) ≤ r := hrc.1
      have hrlt : r < g.rows := hrc.2.1
      have hc0 : (0 : Int) ≤ c := hrc.2.2.1
      have hclt : c < g.cols := hrc.2.2.2
      have hR0 : (0 : Int) ≤ row := hin.1
      have hRlt : row < g.rows := hin.2.1
      have hC0 : (0 : Int) ≤ col := hin.2.2.1
      have hClt : col < g.cols := hin.2.2.2
      by_cases hrow : r = row
      · subst hrow
        rw [getD_set_self _ _ _ _ (by rw [hwf.1]; omega)]
        by_cases hcol : c = col
        · subst hcol
          rw [getD_set_self _ _ _ _ (by rw [WF_row_length hwf (by omega)]; omega)]
          simp [hin]
        · rw [getD_set_ne _ _ _ _ _ (by omega)]
          simp [hcol]
      · rw [getD_set_ne _ _ _ _ _ (by omega)]
        simp [hrow]
    · have hrc' : ¬ inBounds { g with grid := g.grid.set row.toNat ((g.grid.getD row.toNat []).set col.toNat b) } r c := hrc
      rw [getCell_of_not_inBounds _ hrc', getCell_of_not_inBounds _ hrc]
      rw [if_neg]
      rintro ⟨rfl, rfl, h⟩
      exact hrc h
  · rw [setCell_of_not_inBounds g b hin, if_neg]
    rintro ⟨-, -, h⟩
    exact hin h

end GameOfLife

namespace GameOfLife

/-! ### nextGeneration -/

theorem nextGeneration_grid_length (g : GameOfLife) :
    (g.nextGeneration).grid.length = g.rows.toNat := by
  simp [nextGeneration]

theorem nextGeneration_row_length (g : GameOfLife) :
    ∀ r ∈ (g.nextGeneration).grid, r.length = g.cols.toNat := by
  intro r hr
  simp only [nextGeneration, List.mem_map, List.mem_range] at hr
  obtain ⟨i, -, rfl⟩ := hr
  simp

theorem getCell_nextGeneration (g : GameOfLife) {row col : Int} (h : inBounds g row col) :
    (g.nextGeneration).getCell row col =
      (if g.getCell row col then g.survivalRule.contains (g.countNeighbors row col)
       else g.birthRule.contains (g.countNeighbors row col)) := by
  have h' : inBounds g.nextGeneration row col := h
  have hr : (0 : Int) ≤ row := h.1
  have hrlt : row < g.rows := h.2.1
  have hc : (0 : Int) ≤ col := h.2.2.1
  have hclt : col < g.cols := h.2.2.2
  rw [getCell_of_inBounds _ h']
  show (((List.range g.rows.toNat).map _).getD row.toNat []).getD col.toNat false = _
  rw [getD_map_range _ _ _ _ (by omega), getD_map_range _ _ _ _ (by omega)]
  simp only [Int.toNat_of_nonneg hr, Int.toNat_of_nonneg hc]
  rw [← getCell_of_inBounds g h]

end GameOfLife

namespace GameOfLife

/-! ### The empty grid -/

theorem createEmptyGrid_getD (rows cols : Int) (r c : Nat) :
    ((createEmptyGrid rows cols).getD r []).getD c false = false := by
  unfold createEmptyGrid
  rw [List.getD_eq_getElem?_getD (List.replicate rows.toNat (List.replicate cols.toNat false)) r [],
    List.getElem?_replicate]
  by_cases hr : r < rows.toNat
  · rw [if_pos hr, Option.getD_some]
    exact getD_replicate_self _ _ _
  · rw [if_neg hr]
    rfl

theorem getCell_new (rows cols row col : Int) : (new rows cols).getCell row col = false := by
  by_cases h : inBounds (new rows cols) row col
  · rw [getCell_of_inBounds _ h]
    exact createEmptyGrid_getD rows cols _ _
  · exact getCell_of_not_inBounds _ h

theorem getPopulation_eq_zero {g : GameOfLife}
    (h : ∀ r c : Nat, (g.grid.getD r []).getD c false = false) : g.getPopulation = 0 := by
  unfold getPopulation
  apply List.sum_eq_zero
  intro x hx
  simp only [List.mem_map, List.mem_range] at hx
  obtain ⟨row, -, rfl⟩ := hx
  rw [List.countP_eq_zero]
  intro col _
  simp only [h row col]
  exact Bool.false_ne_true

theorem getPopulation_new (rows cols : Int) : (new rows cols).getPopulation = 0 :=
  getPopulation_eq_zero fun r c => createEmptyGrid_getD rows cols r c

/-! ### toggleCell via setCell -/

theorem setCell_setCell {g : GameOfLife} (hwf : WF g) (row col : Int) (a b : Bool) :
    (g.setCell row col a).setCell row col b = g.setCell row col b := by
  by_cases h : inBounds g row col
  · have h1 : inBounds (g.setCell row col a) row col :=
      (setCell_inBounds_iff g row col row col a).mpr h
    have hrow : row.toNat < g.grid.length := by
      have h2 := h.1
      have h3 := h.2.1
      rw [hwf.1]
      omega
    rw [setCell_of_inBounds _ b h1, setCell_of_inBounds _ a h, setCell_of_inBounds _ b h]
    simp only [getD_set_self _ _ _ _ hrow, List.set_set]
  · rw [setCell_of_not_inBounds _ a h]

theorem setCell_getCell_self (g : GameOfLife) (row col : Int) :
    g.setCell row col (g.getCell row col) = g := by
  by_cases h : inBounds g row col
  · rw [getCell_of_inBounds g h, setCell_of_inBounds _ _ h, set_getD_self, set_getD_self]
  · exact setCell_of_not_inBounds g _ h

theorem getCell_toggleCell {g : GameOfLife} (hwf : WF g) (row col r c : Int) :
    (g.toggleCell row col).getCell r c =
      if r = row ∧ c = col ∧ inBounds g row col then !(g.getCell row col)
      else g.getCell r c := by
  rw [toggleCell_eq_setCell, getCell_setCell hwf]

theorem toggleCell_toggleCell {g : GameOfLife} (hwf : WF g) {row col : Int}
    (h : inBounds g row col) :
    (g.toggleCell row col).toggleCell row col = g := by
  rw [toggleCell_eq_setCell, toggleCell_eq_setCell, getCell_setCell hwf,
    if_pos ⟨rfl, rfl, h⟩, setCell_setCell hwf, Bool.not_not, setCell_getCell_self]

end GameOfLife

namespace GameOfLife

/-- C1: nextGeneration replaces the grid by a new grid of the same
dimensions in which every cell's state is survivalRule-membership of its
pre-step 8-neighbor live count when it was alive, and birthRule-membership
when it was dead; every quantity on the right-hand side is computed from
the unmodified pre-step state g, so no updated cell influences another
cell of the same step. -/
theorem nextGeneration_cell_spec (g : GameOfLife) (row col : Int) (h : inBounds g row col) :
    (g.nextGeneration).grid.length = g.rows.toNat
    ∧ (∀ r ∈ (g.nextGeneration).grid, r.length = g.cols.toNat)
    ∧ (g.nextGeneration).getCell row col =
        (if g.getCell row col then g.survivalRule.contains (g.countNeighbors row col)
         else g.birthRule.contains (g.countNeighbors row col)) :=
  ⟨nextGeneration_grid_length g, nextGeneration_row_length g, getCell_nextGeneration g h⟩

theorem nextGeneration_cell_spec_witness :
    inBounds ((GameOfLife.new 2 2).setCell 0 0 true) 0 1
    ∧ ((((GameOfLife.new 2 2).setCell 0 0 true).nextGeneration).grid.length
          = ((GameOfLife.new 2 2).setCell 0 0 true).rows.toNat
      ∧ (∀ r ∈ (((GameOfLife.new 2 2).setCell 0 0 true).nextGeneration).grid,
          r.length = ((GameOfLife.new 2 2).setCell 0 0 true).cols.toNat)
      ∧ (((GameOfLife.new 2 2).setCell 0 0 true).nextGeneration).getCell 0 1 =
          (if ((GameOfLife.new 2 2).setCell 0 0 true).getCell 0 1
           then ((GameOfLife.new 2 2).setCell 0 0 true).survivalRule.contains
             (((GameOfLife.new 2 2).setCell 0 0 true).countNeighbors 0 1)
           else ((GameOfLife.new 2 2).setCell 0 0 true).birthRule.contains
             (((GameOfLife.new 2 2).setCell 0 0 true).countNeighbors 0 1))) :=
  ⟨by decide, nextGeneration_cell_spec ((GameOfLife.new 2 2).setCell 0 0 true) 0 1 (by decide)⟩

/-- C2: getCell with any out-of-bounds coordinate returns false; being a
pure function of the state in this embedding, it cannot raise or mutate
anything. -/
theorem getCell_out_of_bounds_spec (g : GameOfLife) (row col : Int)
    (h : row < 0 ∨ g.rows ≤ row ∨ col < 0 ∨ g.cols ≤ col) :
    g.getCell row col = false := by
  unfold getCell
  exact if_pos h

theorem getCell_out_of_bounds_spec_witness :
    ((-1 : Int) < 0 ∨ (GameOfLife.new 2 3).rows ≤ -1 ∨ (0 : Int) < 0
      ∨ (GameOfLife.new 2 3).cols ≤ 0)
    ∧ (GameOfLife.new 2 3).getCell (-1) 0 = false :=
  ⟨by decide, getCell_out_of_bounds_spec (GameOfLife.new 2 3) (-1) 0 (by decide)⟩

/-- C4: out-of-bounds setCell and toggleCell are silent no-ops: the whole
engine state (grid, rules, dimensions) is returned unchanged, so in
particular the population is unchanged. -/
theorem setCell_toggleCell_out_of_bounds_noop (g : GameOfLife) (row col : Int) (alive : Bool)
    (h : ¬ inBounds g row col) :
    g.setCell row col alive = g ∧ g.toggleCell row col = g
    ∧ (g.setCell row col alive).getPopulation = g.getPopulation
    ∧ (g.toggleCell row col).getPopulation = g.getPopulation := by
  refine ⟨setCell_of_not_inBounds g alive h, toggleCell_of_not_inBounds g h, ?_, ?_⟩
  · rw [setCell_of_not_inBounds g alive h]
  · rw [toggleCell_of_not_inBounds g h]

theorem setCell_toggleCell_out_of_bounds_noop_witness :
    ¬ inBounds (GameOfLife.new 2 3) 2 1
    ∧ ((GameOfLife.new 2 3).setCell 2 1 true = GameOfLife.new 2 3
      ∧ (GameOfLife.new 2 3).toggleCell 2 1 = GameOfLife.new 2 3
      ∧ ((GameOfLife.new 2 3).setCell 2 1 true).getPopulation = (GameOfLife.new 2 3).getPopulation
      ∧ ((GameOfLife.new 2 3).toggleCell 2 1).getPopulation = (GameOfLife.new 2 3).getPopulation) :=
  ⟨by decide, setCell_toggleCell_out_of_bounds_noop (GameOfLife.new 2 3) 2 1 true (by decide)⟩

/-- C7: a newly constructed engine with positive dimensions has a
rows x cols grid with every cell dead (getCell false everywhere and
population 0), birth rule exactly {3} and survival rule exactly {2, 3}. -/
theorem new_engine_spec (rows cols : Int) (hr : 0 < rows) (hc : 0 < cols) :
    (∀ row col : Int, (new rows cols).getCell row col = false)
    ∧ (new rows cols).getPopulation = 0
    ∧ (new rows cols).getBirthRule = [3]
    ∧ (new rows cols).getSurvivalRule = [2, 3]
    ∧ (new rows cols).grid.length = rows.toNat
    ∧ (∀ r ∈ (new rows cols).grid, r.length = cols.toNat) := by
  refine ⟨fun row col => getCell_new rows cols row col, getPopulation_new rows cols,
    ?_, ?_, ?_, ?_⟩
  · exact (by decide : List.insertionSort jsLe [3] = [3])
  · exact (by decide : List.insertionSort jsLe [2, 3] = [2, 3])
  · exact (WF_new rows cols).1
  · exact (WF_new rows cols).2

theorem new_engine_spec_witness :
    ((0 : Int) < 2 ∧ (0 : Int) < 3)
    ∧ ((∀ row col : Int, (GameOfLife.new 2 3).getCell row col = false)
      ∧ (GameOfLife.new 2 3).getPopulation = 0
      ∧ (GameOfLife.new 2 3).getBirthRule = [3]
      ∧ (GameOfLife.new 2 3).getSurvivalRule = [2, 3]
      ∧ (GameOfLife.new 2 3).grid.length = (2 : Int).toNat
      ∧ (∀ r ∈ (GameOfLife.new 2 3).grid, r.length = (3 : Int).toNat)) :=
  ⟨⟨by decide, by decide⟩, new_engine_spec 2 3 (by decide) (by decide)⟩

/-- C8: toggling an in-bounds cell twice restores exactly the original
engine state, and a single toggle flips that cell while every other cell
keeps its state. -/
theorem toggleCell_spec (g : GameOfLife) (row col : Int) (hwf : WF g)
    (h : inBounds g row col) :
    (g.toggleCell row col).toggleCell row col = g
    ∧ (g.toggleCell row col).getCell row col = !(g.getCell row col)
    ∧ (∀ r c : Int, ¬(r = row ∧ c = col) →
        (g.toggleCell row col).getCell r c = g.getCell r c) := by
  refine ⟨toggleCell_toggleCell hwf h, ?_, ?_⟩
  · rw [getCell_toggleCell hwf, if_pos ⟨rfl, rfl, h⟩]
  · intro r c hne
    rw [getCell_toggleCell hwf, if_neg]
    rintro ⟨h1, h2, -⟩
    exact hne ⟨h1, h2⟩

theorem toggleCell_spec_witness :
    (WF (GameOfLife.new 3 3) ∧ inBounds (GameOfLife.new 3 3) 1 2)
    ∧ (((GameOfLife.new 3 3).toggleCell 1 2).toggleCell 1 2 = GameOfLife.new 3 3
      ∧ ((GameOfLife.new 3 3).toggleCell 1 2).getCell 1 2 = !((GameOfLife.new 3 3).getCell 1 2)
      ∧ (∀ r c : Int, ¬(r = 1 ∧ c = 2) →
          ((GameOfLife.new 3 3).toggleCell 1 2).getCell r c = (GameOfLife.new 3 3).getCell r c)) :=
  ⟨⟨by decide, by decide⟩, toggleCell_spec (GameOfLife.new 3 3) 1 2 (by decide) (by decide)⟩

/-- C9: the generation advance is deterministic: two engine states that
agree on the grid, the dimensions and both rule sets produce identical
next grids, so the result depends on nothing else. -/
theorem nextGeneration_deterministic (g1 g2 : GameOfLife)
    (hrows : g1.rows = g2.rows) (hcols : g1.cols = g2.cols) (hgrid : g1.grid = g2.grid)
    (hb : g1.birthRule = g2.birthRule) (hs : g1.survivalRule = g2.survivalRule) :
    g1.nextGeneration.grid = g2.nextGeneration.grid := by
  cases g1
  cases g2
  simp_all

theorem nextGeneration_deterministic_witness :
    (((GameOfLife.new 2 2).setCell 1 1 true).rows = ((GameOfLife.new 2 2).setCell 1 1 true).rows
      ∧ ((GameOfLife.new 2 2).setCell 1 1 true).cols = ((GameOfLife.new 2 2).setCell 1 1 true).cols
      ∧ ((GameOfLife.new 2 2).setCell 1 1 true).grid = ((GameOfLife.new 2 2).setCell 1 1 true).grid
      ∧ ((GameOfLife.new 2 2).setCell 1 1 true).birthRule
          = ((GameOfLife.new 2 2).setCell 1 1 true).birthRule
      ∧ ((GameOfLife.new 2 2).setCell 1 1 true).survivalRule
          = ((GameOfLife.new 2 2).setCell 1 1 true).survivalRule)
    ∧ ((GameOfLife.new 2 2).setCell 1 1 true).nextGeneration.grid
        = ((GameOfLife.new 2 2).setCell 1 1 true).nextGeneration.grid :=
  ⟨⟨rfl, rfl, rfl, rfl, rfl⟩,
    nextGeneration_deterministic ((GameOfLife.new 2 2).setCell 1 1 true)
      ((GameOfLife.new 2 2).setCell 1 1 true) rfl rfl rfl rfl rfl⟩

end GameOfLife

namespace GameOfLife

/-! ### Degenerate dimensions -/

theorem getPopulation_degenerate {g : GameOfLife} (h : g.rows ≤ 0 ∨ g.cols ≤ 0) :
    g.getPopulation = 0 := by
  unfold getPopulation
  apply List.sum_eq_zero
  intro x hx
  simp only [List.mem_map, List.mem_range] at hx
  obtain ⟨row, hrow, rfl⟩ := hx
  rcases h with h | h
  · omega
  · have hc : g.cols.toNat = 0 := by omega
    rw [hc]
    rfl

theorem foldl_rows_cols {α : Type} (f : GameOfLife → α → GameOfLife)
    (hf : ∀ g a, (f g a).rows = g.rows ∧ (f g a).cols = g.cols) :
    ∀ (l : List α) (g : GameOfLife),
      (l.foldl f g).rows = g.rows ∧ (l.foldl f g).cols = g.cols
  | [], _ => ⟨rfl, rfl⟩
  | a :: l, g => by
    rw [List.foldl_cons]
    obtain ⟨h1, h2⟩ := foldl_rows_cols f hf l (f g a)
    exact ⟨h1.trans (hf g a).1, h2.trans (hf g a).2⟩

theorem stampPattern_rows_cols (p : List (List Nat)) (g : GameOfLife) (sr sc : Int) :
    (stampPattern p g sr sc).rows = g.rows ∧ (stampPattern p g sr sc).cols = g.cols := by
  unfold stampPattern
  apply foldl_rows_cols
  intro g1 row
  apply foldl_rows_cols
  intro g2 col
  split
  · exact ⟨setCell_rows g2 _ _ true, setCell_cols g2 _ _ true⟩
  · exact ⟨rfl, rfl⟩

/-- C10: construction with non-positive rows or cols still succeeds and
yields a total, well-defined engine: getCell is false everywhere, the
population is 0, single-cell mutations are no-ops, and clear,
nextGeneration and both pattern stampers all leave the population at 0. -/
theorem degenerate_dims_spec (rows cols : Int) (h : rows ≤ 0 ∨ cols ≤ 0) :
    (∀ row col : Int, (new rows cols).getCell row col = false)
    ∧ (new rows cols).getPopulation = 0
    ∧ (∀ row col : Int, ∀ b : Bool, (new rows cols).setCell row col b = new rows cols)
    ∧ (∀ row col : Int, (new rows cols).toggleCell row col = new rows cols)
    ∧ (new rows cols).clear.getPopulation = 0
    ∧ (new rows cols).nextGeneration.getPopulation = 0
    ∧ (∀ sr sc : Int, ((new rows cols).addGlider sr sc).getPopulation = 0)
    ∧ (∀ sr sc : Int, ((new rows cols).addGliderGun sr sc).getPopulation = 0) := by
  have hnb : ∀ row col : Int, ¬ inBounds (new rows cols) row col := by
    intro row col hin
    have h1 := hin.1
    have h2 := hin.2.1
    have h3 := hin.2.2.1
    have h4 := hin.2.2.2
    show False
    simp only [new] at h2 h4
    omega
  refine ⟨fun row col => getCell_new rows cols row col, getPopulation_new rows cols,
    fun row col b => setCell_of_not_inBounds _ b (hnb row col),
    fun row col => toggleCell_of_not_inBounds _ (hnb row col),
    getPopulation_degenerate h, getPopulation_degenerate h, ?_, ?_⟩
  · intro sr sc
    apply getPopulation_degenerate
    unfold addGlider
    rw [(stampPattern_rows_cols glider (new rows cols) sr sc).1,
      (stampPattern_rows_cols glider (new rows cols) sr sc).2]
    exact h
  · intro sr sc
    apply getPopulation_degenerate
    unfold addGliderGun
    rw [(stampPattern_rows_cols gliderGunPattern (new rows cols) sr sc).1,
      (stampPattern_rows_cols gliderGunPattern (new rows cols) sr sc).2]
    exact h

theorem degenerate_dims_spec_witness :
    ((0 : Int) ≤ 0 ∨ (-4 : Int) ≤ 0)
    ∧ ((∀ row col : Int, (GameOfLife.new 0 (-4)).getCell row col = false)
      ∧ (GameOfLife.new 0 (-4)).getPopulation = 0
      ∧ (∀ row col : Int, ∀ b : Bool,
          (GameOfLife.new 0 (-4)).setCell row col b = GameOfLife.new 0 (-4))
      ∧ (∀ row col : Int, (GameOfLife.new 0 (-4)).toggleCell row col = GameOfLife.new 0 (-4))
      ∧ (GameOfLife.new 0 (-4)).clear.getPopulation = 0
      ∧ (GameOfLife.new 0 (-4)).nextGeneration.getPopulation = 0
      ∧ (∀ sr sc : Int, ((GameOfLife.new 0 (-4)).addGlider sr sc).getPopulation = 0)
      ∧ (∀ sr sc : Int, ((GameOfLife.new 0 (-4)).addGliderGun sr sc).getPopulation = 0)) :=
  ⟨by decide, degenerate_dims_spec 0 (-4) (by decide)⟩

end GameOfLife

/-! ### The JS default sort order on numbers -/

theorem strLtB_nil_right (x : List Char) : strLtB x [] = false := by
  cases x <;> rfl

theorem strLtB_asymm : ∀ x y : List Char, strLtB x y = true → strLtB y x = false := by
  intro x
  induction x with
  | nil =>
    intro y h
    cases y with
    | nil => simp [strLtB] at h
    | cons b bs => exact strLtB_nil_right _
  | cons a as ih =>
    intro y h
    cases y with
    | nil => simp [strLtB] at h
    | cons b bs =>
      simp only [strLtB, Bool.or_eq_true, decide_eq_true_eq, Bool.and_eq_true,
        beq_iff_eq] at h
      simp only [strLtB, Bool.or_eq_false_iff, decide_eq_false_iff_not,
        Bool.and_eq_false_iff, beq_eq_false_iff_ne, ne_eq]
      rcases h with h | ⟨heq, htail⟩
      · constructor
        · exact lt_asymm h
        · left
          exact fun hba => absurd (hba ▸ h) (lt_irrefl b)
      · subst heq
        constructor
        · exact lt_irrefl a
        · right
          exact ih bs htail

theorem strLtB_connect : ∀ x y z : List Char, strLtB x z = true →
    strLtB x y = true ∨ strLtB y z = true := by
  intro x
  induction x with
  | nil =>
    intro y z h
    cases z with
    | nil => simp [strLtB] at h
    | cons c cs =>
      cases y with
      | nil => right; exact h
      | cons b bs => left; rfl
  | cons a as ih =>
    intro y z h
    cases z with
    | nil => rw [strLtB_nil_right] at h; exact absurd h (by simp)
    | cons c cs =>
      simp only [strLtB, Bool.or_eq_true, decide_eq_true_eq, Bool.and_eq_true,
        beq_iff_eq] at h
      cases y with
      | nil => right; rfl
      | cons b bs =>
        simp only [strLtB, Bool.or_eq_true, decide_eq_true_eq, Bool.and_eq_true,
          beq_iff_eq]
        rcases lt_trichotomy a b with hab | hab | hab
        · left; left; exact hab
        · subst hab
          rcases h with h | ⟨heq, htail⟩
          · right; left; exact h
          · subst heq
            rcases ih bs cs htail with h1 | h1
            · left; right; exact ⟨rfl, h1⟩
            · right; right; exact ⟨rfl, h1⟩
        · rcases h with h | ⟨heq, htail⟩
          · right; left; exact lt_trans hab h
          · subst heq
            right; left; exact hab

instance : IsTotal Nat jsLe := by
  constructor
  intro a b
  unfold jsLe
  cases hb : strLtB (Nat.toDigits 10 b) (Nat.toDigits 10 a)
  · left; rfl
  · right; exact strLtB_asymm _ _ hb

instance : IsTrans Nat jsLe := by
  constructor
  intro a b c hab hbc
  unfold jsLe at *
  cases hca : strLtB (Nat.toDigits 10 c) (Nat.toDigits 10 a)
  · rfl
  · rcases strLtB_connect _ (Nat.toDigits 10 b) _ hca with h1 | h1
    · rw [hbc] at h1; exact absurd h1 (by simp)
    · rw [hab] at h1; exact absurd h1 (by simp)

/-! ### dedupFirst -/

theorem mem_dedupFirstGo : ∀ (l seen : List Nat) (a : Nat),
    a ∈ dedupFirstGo l seen ↔ a ∈ l ∧ a ∉ seen := by
  intro l
  induction l with
  | nil => simp [dedupFirstGo]
  | cons x xs ih =>
    intro seen a
    simp only [dedupFirstGo]
    split
    · rw [ih]
      simp only [List.mem_cons]
      constructor
      · rintro ⟨hmem, hns⟩
        exact ⟨Or.inr hmem, hns⟩
      · rintro ⟨hx | hmem, hns⟩
        · subst hx
          exact absurd (by assumption) hns
        · exact ⟨hmem, hns⟩
    · simp only [List.mem_cons, ih]
      constructor
      · rintro (rfl | ⟨hmem, hns⟩)
        · exact ⟨Or.inl rfl, by assumption⟩
        · exact ⟨Or.inr hmem, fun hs => hns (Or.inr hs)⟩
      · rintro ⟨hx | hmem, hns⟩
        · exact Or.inl hx
        · by_cases hax : a = x
          · exact Or.inl hax
          · exact Or.inr ⟨hmem, by simp [hax, hns]⟩

theorem nodup_dedupFirstGo : ∀ (l seen : List Nat), (dedupFirstGo l seen).Nodup := by
  intro l
  induction l with
  | nil => intro seen; simp [dedupFirstGo]
  | cons x xs ih =>
    intro seen
    simp only [dedupFirstGo]
    split
    · exact ih seen
    · rw [List.nodup_cons]
      refine ⟨?_, ih (x :: seen)⟩
      intro hx
      rw [mem_dedupFirstGo] at hx
      exact hx.2 (List.mem_cons_self x seen)

theorem mem_dedupFirst (l : List Nat) (a : Nat) : a ∈ dedupFirst l ↔ a ∈ l := by
  unfold dedupFirst
  rw [mem_dedupFirstGo]
  simp

theorem nodup_dedupFirst (l : List Nat) : (dedupFirst l).Nodup :=
  nodup_dedupFirstGo l []

/-- C3 (counterexample): the rule getters do NOT return the elements in
numerically ascending order: after setBirthRule [2, 10], getBirthRule
returns [10, 2] (the JS default sort compares decimal strings, and
the string 10 sorts before the string 2), which is not sorted by the
numeric order. -/
theorem rule_getter_numeric_counterexample :
    ((GameOfLife.new 1 1).setBirthRule [2, 10]).getBirthRule = [10, 2]
    ∧ ¬ List.Sorted (fun a b : Nat => a ≤ b)
        (((GameOfLife.new 1 1).setBirthRule [2, 10]).getBirthRule) := by
  constructor
  · decide
  · decide

/-- C3 (amended): after setBirthRule (resp. setSurvivalRule) with any list
of counts, the getter returns exactly the distinct elements of that list,
each exactly once, arranged in ascending lexicographic order of their
decimal string representations (the JS default sort order, which agrees
with the numeric order on counts of one digit but not in general). -/
theorem rule_getters_sorted_distinct (g : GameOfLife) (l : List Nat) :
    ((∀ x : Nat, x ∈ (g.setBirthRule l).getBirthRule ↔ x ∈ l)
      ∧ (g.setBirthRule l).getBirthRule.Nodup
      ∧ List.Sorted jsLe ((g.setBirthRule l).getBirthRule))
    ∧ ((∀ x : Nat, x ∈ (g.setSurvivalRule l).getSurvivalRule ↔ x ∈ l)
      ∧ (g.setSurvivalRule l).getSurvivalRule.Nodup
      ∧ List.Sorted jsLe ((g.setSurvivalRule l).getSurvivalRule)) := by
  constructor <;>
    exact ⟨fun x =>
        ((List.perm_insertionSort jsLe (dedupFirst l)).mem_iff).trans (mem_dedupFirst l x),
      (List.perm_insertionSort jsLe (dedupFirst l)).symm.nodup (nodup_dedupFirst l),
      List.sorted_insertionSort jsLe (dedupFirst l)⟩

namespace GameOfLife

/-! ### Pattern stamping -/

theorem WF_setCellsTrue : ∀ (qs : List (Int × Int)) {g : GameOfLife}, WF g →
    WF (setCellsTrue g qs)
  | [], _, hwf => hwf
  | q :: qs, g, hwf =>
    WF_setCellsTrue qs (WF_setCell hwf q.1 q.2 true)

theorem getCell_setCellsTrue : ∀ (qs : List (Int × Int)) {g : GameOfLife}, WF g → ∀ r c : Int,
    (setCellsTrue g qs).getCell r c =
      if (r, c) ∈ qs ∧ inBounds g r c then true else g.getCell r c
  | [], g, hwf, r, c => by
    simp [setCellsTrue]
  | q :: qs, g, hwf, r, c => by
    show (setCellsTrue (g.setCell q.1 q.2 true) qs).getCell r c = _
    rw [getCell_setCellsTrue qs (WF_setCell hwf q.1 q.2 true) r c]
    by_cases hin : inBounds g r c
    · have hin1 : inBounds (g.setCell q.1 q.2 true) r c :=
        (setCell_inBounds_iff g q.1 q.2 r c true).mpr hin
      by_cases hmem : (r, c) ∈ qs
      · rw [if_pos ⟨hmem, hin1⟩, if_pos ⟨List.mem_cons_of_mem q hmem, hin⟩]
      · rw [if_neg (fun hh => hmem hh.1), getCell_setCell hwf]
        by_cases hq : (r, c) = q
        · have hq1 : r = q.1 := by rw [← hq]
          have hq2 : c = q.2 := by rw [← hq]
          have hinq : inBounds g q.1 q.2 := by rw [← hq1, ← hq2]; exact hin
          rw [if_pos ⟨hq1, hq2, hinq⟩, if_pos ⟨List.mem_cons.mpr (Or.inl hq), hin⟩]
        · rw [if_neg, if_neg]
          · rintro ⟨hh, -⟩
            rcases List.mem_cons.mp hh with hh1 | hh1
            · exact hq hh1
            · exact hmem hh1
          · rintro ⟨h1, h2, -⟩
            exact hq (Prod.ext h1 h2)
    · have hin1 : ¬ inBounds (g.setCell q.1 q.2 true) r c :=
        fun hh => hin ((setCell_inBounds_iff g q.1 q.2 r c true).mp hh)
      rw [if_neg (fun hh => hin1 hh.2), if_neg (fun hh => hin hh.2), getCell_setCell hwf]
      rw [if_neg]
      rintro ⟨rfl, rfl, hq⟩
      exact hin hq

theorem setCellsTrue_append (g : GameOfLife) (l1 l2 : List (Int × Int)) :
    setCellsTrue g (l1 ++ l2) = setCellsTrue (setCellsTrue g l1) l2 :=
  List.foldl_append _ _ l1 l2

theorem foldl_setCellsTrue_flatMap {α : Type} (h : α → List (Int × Int)) :
    ∀ (l : List α) (g : GameOfLife),
      l.foldl (fun g1 a => setCellsTrue g1 (h a)) g = setCellsTrue g (l.flatMap h)
  | [], _ => rfl
  | a :: l, g => by
    rw [List.foldl_cons, List.flatMap_cons, setCellsTrue_append]
    exact foldl_setCellsTrue_flatMap h l _

theorem foldl_if_setCell (sr sc : Int) (ri : Nat) (p : Nat → Prop) [DecidablePred p] :
    ∀ (cs : List Nat) (g : GameOfLife),
      cs.foldl (fun g2 (col : Nat) =>
          if p col then g2.setCell (sr + (ri : Int)) (sc + (col : Int)) true else g2) g
        = setCellsTrue g ((cs.filter fun (col : Nat) => p col).map fun (col : Nat) =>
            (sr + (ri : Int), sc + (col : Int)))
  | [], _ => rfl
  | c :: cs, g => by
    rw [List.foldl_cons, List.filter_cons]
    by_cases h : p c
    · rw [if_pos h, if_pos (by simpa using h), List.map_cons]
      exact foldl_if_setCell sr sc ri p cs _
    · rw [if_neg h, if_neg (by simpa using h)]
      exact foldl_if_setCell sr sc ri p cs g

theorem stampPattern_eq_setCellsTrue (pat : List (List Nat)) (g : GameOfLife) (sr sc : Int) :
    stampPattern pat g sr sc
      = setCellsTrue g ((patternCoords pat).map fun q => (sr + q.1, sc + q.2)) := by
  unfold stampPattern patternCoords
  rw [List.map_flatMap]
  rw [← foldl_setCellsTrue_flatMap]
  congr 1
  funext g1 row
  rw [foldl_if_setCell sr sc row (fun (col : Nat) => (pat.getD row []).getD col 0 ≠ 0)
    (List.range (pat.getD row []).length) g1]
  rw [List.map_map]
  rfl

theorem covers_iff_mem_map (pat : List (List Nat)) (sr sc r c : Int) :
    covers pat sr sc r c ↔
      (r, c) ∈ (patternCoords pat).map fun q => (sr + q.1, sc + q.2) := by
  unfold covers
  rw [List.mem_map]
  constructor
  · rintro ⟨q, hq, h1, h2⟩
    exact ⟨q, hq, by rw [← h1, ← h2]⟩
  · rintro ⟨q, hq, heq⟩
    rw [Prod.mk.injEq] at heq
    exact ⟨q, hq, heq.1.symm, heq.2.symm⟩

theorem getCell_stampPattern (pat : List (List Nat)) {g : GameOfLife} (hwf : WF g)
    (sr sc r c : Int) :
    (stampPattern pat g sr sc).getCell r c =
      if covers pat sr sc r c ∧ inBounds g r c then true else g.getCell r c := by
  rw [stampPattern_eq_setCellsTrue, getCell_setCellsTrue _ hwf r c,
    if_congr (and_congr_left' (covers_iff_mem_map pat sr sc r c).symm) rfl rfl]

/-- C5: pattern stamping (addGlider, addGliderGun) is additive: an alive
cell stays alive, a cell not covered by an alive entry of the stamped
template keeps its previous state, a covered in-bounds cell becomes alive,
and covered coordinates that fall out of bounds are dropped (the full
characterization is the if-expression of the first two clauses). -/
theorem stamp_union_spec (g : GameOfLife) (sr sc r c : Int) (hwf : WF g) :
    ((g.addGlider sr sc).getCell r c
        = if covers glider sr sc r c ∧ inBounds g r c then true else g.getCell r c)
    ∧ ((g.addGliderGun sr sc).getCell r c
        = if covers gliderGunPattern sr sc r c ∧ inBounds g r c then true else g.getCell r c)
    ∧ (g.getCell r c = true → (g.addGlider sr sc).getCell r c = true
        ∧ (g.addGliderGun sr sc).getCell r c = true)
    ∧ (¬ covers glider sr sc r c → (g.addGlider sr sc).getCell r c = g.getCell r c)
    ∧ (¬ covers gliderGunPattern sr sc r c →
        (g.addGliderGun sr sc).getCell r c = g.getCell r c) := by
  have h1 : (g.addGlider sr sc).getCell r c
      = if covers glider sr sc r c ∧ inBounds g r c then true else g.getCell r c :=
    getCell_stampPattern glider hwf sr sc r c
  have h2 : (g.addGliderGun sr sc).getCell r c
      = if covers gliderGunPattern sr sc r c ∧ inBounds g r c then true else g.getCell r c :=
    getCell_stampPattern gliderGunPattern hwf sr sc r c
  refine ⟨h1, h2, ?_, ?_, ?_⟩
  · intro halive
    constructor
    · rw [h1]
      split
      · rfl
      · exact halive
    · rw [h2]
      split
      · rfl
      · exact halive
  · intro hnc
    rw [h1, if_neg (fun hh => hnc hh.1)]
  · intro hnc
    rw [h2, if_neg (fun hh => hnc hh.1)]

theorem stamp_union_spec_witness :
    WF ((GameOfLife.new 4 4).setCell 3 3 true)
    ∧ ((((GameOfLife.new 4 4).setCell 3 3 true).addGlider 0 0).getCell 1 2
          = (if covers glider 0 0 1 2 ∧ inBounds ((GameOfLife.new 4 4).setCell 3 3 true) 1 2
             then true else ((GameOfLife.new 4 4).setCell 3 3 true).getCell 1 2)
      ∧ ((((GameOfLife.new 4 4).setCell 3 3 true).addGliderGun 0 0).getCell 1 2
          = (if covers gliderGunPattern 0 0 1 2
                ∧ inBounds ((GameOfLife.new 4 4).setCell 3 3 true) 1 2
             then true else ((GameOfLife.new 4 4).setCell 3 3 true).getCell 1 2))
      ∧ (((GameOfLife.new 4 4).setCell 3 3 true).getCell 1 2 = true →
          (((GameOfLife.new 4 4).setCell 3 3 true).addGlider 0 0).getCell 1 2 = true
          ∧ (((GameOfLife.new 4 4).setCell 3 3 true).addGliderGun 0 0).getCell 1 2 = true)
      ∧ (¬ covers glider 0 0 1 2 →
          (((GameOfLife.new 4 4).setCell 3 3 true).addGlider 0 0).getCell 1 2
            = ((GameOfLife.new 4 4).setCell 3 3 true).getCell 1 2)
      ∧ (¬ covers gliderGunPattern 0 0 1 2 →
          (((GameOfLife.new 4 4).setCell 3 3 true).addGliderGun 0 0).getCell 1 2
            = ((GameOfLife.new 4 4).setCell 3 3 true).getCell 1 2)) :=
  ⟨by decide, stamp_union_spec ((GameOfLife.new 4 4).setCell 3 3 true) 0 0 1 2 (by decide)⟩

end GameOfLife

/-- C6: under the default B3/S23 rules, the glider stamped at (1, 1) on a
sufficiently large empty grid (shown here on 8 x 8 and 16 x 16), advanced
four generations, gives exactly the grid of the same glider stamped at
(2, 2): every live cell is translated by (+1, +1). -/
theorem glider_translation_spec :
    ((((GameOfLife.new 8 8).addGlider 1 1).nextGeneration.nextGeneration.nextGeneration.nextGeneration).grid
        = ((GameOfLife.new 8 8).addGlider 2 2).grid)
    ∧ ((((GameOfLife.new 16 16).addGlider 1 1).nextGeneration.nextGeneration.nextGeneration.nextGeneration).grid
        = ((GameOfLife.new 16 16).addGlider 2 2).grid) := by
  constructor
  · decide
  · decide
